import Mathlib

/-!
Shallow embedding of the FightPicks single-page app (src/app/page.tsx).

The page component keeps an in-memory pick store `picks : Record<string, Pick>`
and mutates it through `handlePick`, `handleConfidence` and `toggleLockPick`;
loaded state comes from `fetchUserPicks`, `fetchEventsAndFights` and
`fetchLeaderboards`. Backend calls are modelled by passing their outcome
(`Except`/`Option` values) as explicit arguments; timestamps are modelled as
integer epoch milliseconds (the source compares `Date.now()` against
`new Date(...).getTime()`); JS object-spread updates of the record become
functional map updates (`mapSet`).
-/

namespace FightPicks

/-- Winner side of a pick: `'red' | 'blue'` in the source. -/
inductive Winner
  | red
  | blue
deriving DecidableEq, Repr

/-- `FinishType` union from src/app/page.tsx lines 23-28. -/
inductive FinishType
  | submission
  | knockout
  | decisionUnanimous
  | decisionSplit
  | noContest
deriving DecidableEq, Repr

/-- `Pick` type from src/app/page.tsx lines 30-36. `round` is
`number | null`, `confidence` a JS number (integer-valued here). -/
structure Pick where
  winner : Winner
  round : Option Nat
  finishType : FinishType
  confidence : Int
  locked : Bool
deriving DecidableEq, Repr

/-- `isRoundIrrelevant` helper, src/app/page.tsx lines 59-62. -/
def isRoundIrrelevant (finishType : FinishType) : Bool :=
  finishType == .decisionUnanimous ||
  finishType == .decisionSplit ||
  finishType == .noContest

/-- `clampConfidence`, src/app/page.tsx line 64: `Math.max(1, Math.min(10, n))`. -/
def clampConfidence (n : Int) : Int := max 1 (min 10 n)

/-- The in-memory pick store `Record<string, Pick>` keyed by fight id. -/
def PickMap : Type := String → Option Pick

/-- JS object-spread update: the map agreeing with `m` except that key `k`
now holds `v`. -/
def mapSet {α : Type} (m : String → Option α) (k : String) (v : α) :
    String → Option α :=
  fun k' => if k' = k then some v else m k'

/-- `handlePick`, src/app/page.tsx lines 351-375: no-op when the existing
pick is locked, otherwise overwrite the entry for `fightId`. -/
def handlePick (prev : PickMap) (fightId : String) (winner : Winner)
    (round : Option Nat) (finishType : FinishType) : PickMap :=
  let roundIrrelevant := isRoundIrrelevant finishType
  let existing := prev fightId
  let locked := (existing.map Pick.locked).getD false
  if locked then prev
  else
    mapSet prev fightId
      { winner := winner
        finishType := finishType
        round := if roundIrrelevant then none else some (round.getD 1)
        confidence := clampConfidence ((existing.map Pick.confidence).getD 5)
        locked := false }

/-- `handleConfidence`, src/app/page.tsx lines 378-385. -/
def handleConfidence (prev : PickMap) (fightId : String) (confidence : Int) :
    PickMap :=
  match prev fightId with
  | none => prev
  | some existing =>
    if existing.locked then prev
    else mapSet prev fightId { existing with confidence := clampConfidence confidence }

/-- A persisted database write issued by `toggleLockPick`: either the upsert
of the full pick row (locking path) or the field update writing only
`locked = false` (unlocking path). -/
inductive DbOp
  | upsertPick (fightId : String) (winner : Winner) (round : Option Nat)
      (finishType : FinishType) (confidence : Int) (locked : Bool)
  | updateLockedFalse (fightId : String)
deriving DecidableEq, Repr

/-- Result of a `toggleLockPick` run: the final pick store, the database
write that was issued (if any), and the alert messages shown to the user. -/
structure ToggleResult where
  picks : PickMap
  op : Option DbOp
  alerts : List String

/-- `toggleLockPick`, src/app/page.tsx lines 388-457. The backend outcome of
whichever call is issued is passed as `backendError` (`none` = success,
`some msg` = the rejection's `error.message`). The optimistic update writes
`locked := !pick.locked` and `round := roundToSave`; the rollback on error
overwrites only the `locked` field of the optimistic entry. -/
def toggleLockPick (hasUser : Bool) (picks : PickMap) (fightId : String)
    (backendError : Option String) : ToggleResult :=
  if !hasUser then ⟨picks, none, ["Please login first."]⟩
  else
    match picks fightId with
    | none => ⟨picks, none, ["Pick not set!"]⟩
    | some pick =>
      let roundIrrelevant := isRoundIrrelevant pick.finishType
      let roundToSave := if roundIrrelevant then none else some (pick.round.getD 1)
      let newLockedState := !pick.locked
      let optimisticPick : Pick := { pick with locked := newLockedState, round := roundToSave }
      let afterOptimistic := mapSet picks fightId optimisticPick
      if newLockedState then
        let op := DbOp.upsertPick fightId pick.winner roundToSave pick.finishType
          (clampConfidence pick.confidence) true
        match backendError with
        | none => ⟨afterOptimistic, some op, []⟩
        | some msg =>
          ⟨mapSet afterOptimistic fightId { optimisticPick with locked := false },
           some op,
           [if msg = "Picks are locked: fight already started" then
              "This fight has already started. Picks are locked."
            else "Unable to lock pick."]⟩
      else
        let op := DbOp.updateLockedFalse fightId
        match backendError with
        | none => ⟨afterOptimistic, some op, []⟩
        | some msg =>
          ⟨mapSet afterOptimistic fightId { optimisticPick with locked := true },
           some op,
           [if msg = "Picks are locked: fight already started" then
              "This fight has already started. Picks cannot be changed."
            else "Unable to unlock pick."]⟩

/-- A row of the `picks` table as fetched for the logged-in user; nullable
columns are `Option`. -/
structure PickRow where
  fight_id : String
  winner : Winner
  round : Option Nat
  finish_type : FinishType
  confidence : Option Int
  locked : Option Bool
deriving DecidableEq, Repr

/-- The in-memory pick built from one fetched row, src/app/page.tsx lines
273-279: `round: p.round ?? null`, `confidence: clampConfidence(p.confidence
?? 5)`, `locked: p.locked ?? false`. -/
def pickFromRow (p : PickRow) : Pick :=
  { winner := p.winner
    round := p.round
    finishType := p.finish_type
    confidence := clampConfidence (p.confidence.getD 5)
    locked := p.locked.getD false }

/-- One iteration of the `forEach` loop of `fetchUserPicks`
(src/app/page.tsx lines 272-280): `pickMap[p.fight_id] = {...}`. -/
def pickStep (m : PickMap) (p : PickRow) : PickMap :=
  mapSet m p.fight_id (pickFromRow p)

/-- The `forEach` loop of `fetchUserPicks` building `pickMap` from the
fetched rows (src/app/page.tsx lines 271-280). -/
def buildPickMap (rows : List PickRow) : PickMap :=
  rows.foldl pickStep (fun _ => none)

/-- `fetchUserPicks` effect on the pick store, src/app/page.tsx lines
250-286: no user clears the store, a fetch error leaves it unchanged,
otherwise it is replaced by the map built from the rows. -/
def fetchUserPicks (prevPicks : PickMap) (hasUser : Bool)
    (rows : Except String (List PickRow)) : PickMap :=
  if !hasUser then fun _ => none
  else
    match rows with
    | .error _ => prevPicks
    | .ok existingPicks => buildPickMap existingPicks

/-- `Event` type, src/app/page.tsx lines 8-14; timestamps as epoch millis. -/
structure Event where
  id : String
  name : String
  event_date : Int
  lock_time : Option Int
  results_open : Bool
deriving DecidableEq, Repr

/-- `Fight` type, src/app/page.tsx lines 15-21. -/
structure Fight where
  id : String
  event_id : String
  fighter_red : String
  fighter_blue : String
  fight_time : Int
deriving DecidableEq, Repr

/-- `EventWithFights`, src/app/page.tsx line 38. -/
structure EventWithFights extends Event where
  fights : List Fight
deriving DecidableEq, Repr

/-- The client-side join of `fetchEventsAndFights`, src/app/page.tsx lines
209-212: each event carries the fights whose `event_id` matches its id. -/
def combineEventsFights (events : List Event) (fights : List Fight) :
    List EventWithFights :=
  events.map (fun event =>
    { toEvent := event
      fights := fights.filter (fun fight => fight.event_id == event.id) })

/-- `fetchEventsAndFights` effect on `eventsWithFights`, src/app/page.tsx
lines 187-218: each fetch outcome is passed in; an error is logged and, if
either fetch produced no data, the join is skipped and the previous state
kept. Returns the new state and the console-error log lines. -/
def fetchEventsAndFights (prev : List EventWithFights)
    (events : Except String (List Event)) (fights : Except String (List Fight)) :
    List EventWithFights × List String :=
  let logs :=
    (match events with
     | .error e => ["Events fetch error: " ++ e]
     | .ok _ => []) ++
    (match fights with
     | .error e => ["Fights fetch error: " ++ e]
     | .ok _ => [])
  match events, fights with
  | .ok es, .ok fs => (combineEventsFights es fs, logs)
  | .error _, _ => (prev, logs)
  | _, .error _ => (prev, logs)

/-- `LeaderRow` type, src/app/page.tsx lines 48-56. -/
structure LeaderRow where
  event_id : String
  user_id : String
  username : Option String
  total_score : Option Int
  scored_picks : Option Int
  perfect_picks : Option Int
  total_confidence_used : Option Int
deriving DecidableEq, Repr

/-- One iteration of the per-event loop of `fetchLeaderboards`
(src/app/page.tsx lines 297-310): an error logs and continues (map
untouched); success stores the rows under the event's id. -/
def lbStep (query : String → Except String (List LeaderRow))
    (m : String → Option (List LeaderRow)) (event : EventWithFights) :
    String → Option (List LeaderRow) :=
  match query event.toEvent.id with
  | .error _ => m
  | .ok rows => mapSet m event.toEvent.id rows

/-- `fetchLeaderboards`, src/app/page.tsx lines 289-314. `query` gives the
outcome of the per-event `event_leaderboard` select (it depends only on the
event id used in the `eq` filter). An empty event list returns early leaving
the previous map; otherwise the stored map is replaced by the fold of
`lbStep` over the loaded events, starting from the empty map. -/
def fetchLeaderboards (events : List EventWithFights)
    (query : String → Except String (List LeaderRow))
    (prev : String → Option (List LeaderRow)) :
    String → Option (List LeaderRow) :=
  match events with
  | [] => prev
  | _ => events.foldl (lbStep query) (fun _ => none)

/-- `isValidUsername`, src/app/page.tsx line 65: the regex
`^[a-zA-Z0-9_]{3,20}$` over ASCII letters, digits and underscore. -/
def isValidUsername (u : String) : Bool :=
  3 ≤ u.length && u.length ≤ 20 &&
    u.toList.all (fun c => c.isAlpha || c.isDigit || c == '_')

/-- JS `usernameInput.trim()`, modelled structurally on the character list
(drop leading and trailing whitespace). -/
def jsTrim (s : String) : String :=
  ⟨((s.data.dropWhile Char.isWhitespace).reverse.dropWhile
      Char.isWhitespace).reverse⟩

/-- JS `s.toLowerCase()`, modelled structurally on the character list. -/
def jsToLower (s : String) : String :=
  ⟨s.data.map Char.toLower⟩

/-- A backend error object: the fields `saveUsername` inspects
(`error.code`, `error.message`), both possibly absent. -/
structure SupabaseError where
  code : Option String
  message : Option String
deriving DecidableEq, Repr

/-- JS `s.includes("duplicate")`: the characters of `duplicate` occur as a
contiguous infix of `s`. -/
def includesDuplicate (s : String) : Bool :=
  decide ("duplicate".data <:+: s.data)

/-- The user-visible outcome of a `saveUsername` attempt, together with the
profile-username update applied on success (`none` = profile unchanged). -/
inductive SaveUsernameOutcome
  | notLoggedIn
  | invalidFormat
  | duplicateTaken
  | genericFailure
  | updated (username : String)
deriving DecidableEq, Repr

/-- The new stored profile username after a `saveUsername` outcome:
`setProfile` runs only on the success path (src/app/page.tsx line 346). -/
def savedUsername : SaveUsernameOutcome → Option String
  | .updated u => some u
  | _ => none

/-- `saveUsername`, src/app/page.tsx lines 321-348. `updateError` is the
outcome of the `profiles` update (`none` = success). The duplicate branch
fires when `error.code === '23505'` or the lowercased `error.message || ''`
contains `'duplicate'`. -/
def saveUsername (hasUser : Bool) (usernameInput : String)
    (updateError : Option SupabaseError) : SaveUsernameOutcome :=
  if !hasUser then .notLoggedIn
  else
    let desired := jsTrim usernameInput
    if !isValidUsername desired then .invalidFormat
    else
      match updateError with
      | some error =>
        if error.code == some "23505" ||
            includesDuplicate (jsToLower (error.message.getD "")) then
          .duplicateTaken
        else .genericFailure
      | none => .updated desired

/-- `AdminResult` draft type, src/app/page.tsx lines 42-46. -/
structure AdminResult where
  winner : Option Winner
  finishType : Option FinishType
  round : Option Nat
deriving DecidableEq, Repr

/-- What `handleAdminSaveResult` does before any network call: refuse, or
invoke the `admin_set_fight_result` procedure with the given arguments. -/
inductive SaveResultAction
  | notAuthorized
  | missingSelection
  | rpc (winner : Winner) (finishType : FinishType) (round : Option Nat)
deriving DecidableEq, Repr

/-- The argument-preparation part of `handleAdminSaveResult`, src/app/page.tsx
lines 460-477: requires the admin flag, requires winner and finish type to be
chosen, and nulls the round when the finish makes it irrelevant (defaulting
to 1 otherwise). -/
def handleAdminSaveResult (isAdmin : Bool) (result : Option AdminResult) :
    SaveResultAction :=
  if !isAdmin then .notAuthorized
  else
    match result with
    | none => .missingSelection
    | some r =>
      match r.winner, r.finishType with
      | some w, some ft =>
        .rpc w ft (if isRoundIrrelevant ft then none else some (r.round.getD 1))
      | _, _ => .missingSelection

/-- `isEventLocked`, src/app/page.tsx line 734:
`event.lock_time ? Date.now() >= new Date(event.lock_time).getTime() : false`. -/
def isEventLocked (now : Int) (lockTime : Option Int) : Bool :=
  match lockTime with
  | some t => decide (t ≤ now)
  | none => false

/-- The disabled flags of the pick-mutating controls rendered for one fight,
src/app/page.tsx lines 862-1028. -/
structure FightControls where
  pickRedDisabled : Bool
  pickBlueDisabled : Bool
  confidenceDisabled : Bool
  roundDisabled : Bool
  finishDisabled : Bool
  lockButtonDisabled : Bool
deriving DecidableEq, Repr

/-- The render-time computation of those flags: `inputsDisabled =
isEventLocked || isLocked` (line 868); winner buttons, slider and finish
buttons use `inputsDisabled`, round buttons `inputsDisabled ||
roundIrrelevant`, and the lock/unlock button `isEventLocked` (line 968).
`fightTime` is the fight's own `fight_time`, in scope at the render but
unused by any disabled condition. -/
def fightControls (now : Int) (lockTime : Option Int) (fightTime : Int)
    (pick : Option Pick) : FightControls :=
  let finishType := (pick.map Pick.finishType).getD .submission
  let roundIrrelevant := isRoundIrrelevant finishType
  let isLocked := (pick.map Pick.locked).getD false
  let inputsDisabled := isEventLocked now lockTime || isLocked
  { pickRedDisabled := inputsDisabled
    pickBlueDisabled := inputsDisabled
    confidenceDisabled := inputsDisabled
    roundDisabled := inputsDisabled || roundIrrelevant
    finishDisabled := inputsDisabled
    lockButtonDisabled := isEventLocked now lockTime }

/-- The normalized round `toggleLockPick` writes for a pick
(`roundToSave`, src/app/page.tsx line 395). -/
def normRound (pick : Pick) : Option Nat :=
  if isRoundIrrelevant pick.finishType then none else some (pick.round.getD 1)

/-- The round-null invariant of the spec: every stored pick whose finish-type
makes the round irrelevant has a null round. -/
def RoundInv (m : PickMap) : Prop :=
  ∀ k p, m k = some p → isRoundIrrelevant p.finishType = true → p.round = none

theorem mapSet_self {α : Type} (m : String → Option α) (k : String) (v : α) :
    mapSet m k v k = some v := by
  simp [mapSet]

theorem mapSet_ne {α : Type} (m : String → Option α) (k k' : String) (v : α)
    (h : k' ≠ k) : mapSet m k v k' = m k' := by
  simp [mapSet, h]

theorem mapSet_mapSet {α : Type} (m : String → Option α) (k : String) (v w : α) :
    mapSet (mapSet m k v) k w = mapSet m k w := by
  funext k'
  by_cases h : k' = k <;> simp [mapSet, h]

theorem roundInv_mapSet {m : PickMap} {k : String} {v : Pick}
    (hm : RoundInv m)
    (hv : isRoundIrrelevant v.finishType = true → v.round = none) :
    RoundInv (mapSet m k v) := by
  intro k' p hk hirr
  by_cases h : k' = k
  · subst h
    rw [mapSet_self] at hk
    cases hk
    exact hv hirr
  · rw [mapSet_ne _ _ _ _ h] at hk
    exact hm k' p hk hirr

/-- C3: `setPick(fightId, winner, round, finishType)` no-ops when the
existing pick for that fight is locked; otherwise it overwrites the pick for
that fight with the given winner and finish-type, with round nulled when the
finish-type makes it irrelevant and defaulted to 1 when the supplied round
is null otherwise (confidence is the existing one, defaulted to 5, clamped;
the new pick is unlocked; all other fights are untouched). -/
theorem setPick_contract (prev : PickMap) (fid : String) (w : Winner)
    (r : Option Nat) (ft : FinishType) :
    (∀ p, prev fid = some p → p.locked = true →
      handlePick prev fid w r ft = prev) ∧
    (((prev fid).map Pick.locked).getD false = false →
      handlePick prev fid w r ft = mapSet prev fid
        { winner := w
          finishType := ft
          round := if isRoundIrrelevant ft then none else some (r.getD 1)
          confidence := clampConfidence (((prev fid).map Pick.confidence).getD 5)
          locked := false }) := by
  constructor
  · intro p hp hl
    simp [handlePick, hp, hl]
  · intro h
    simp [handlePick, h]

/-- Witness for C3 at concrete inputs: a locked existing pick makes the call
a no-op, and a call on an absent pick writes a knockout pick with round
defaulted to 1. -/
theorem setPick_contract_witness :
    (handlePick
        (fun k => if k = "f1" then
          some ⟨Winner.red, some 2, FinishType.knockout, 7, true⟩ else none)
        "f1" Winner.blue (some 3) FinishType.submission) =
      (fun k => if k = "f1" then
        some ⟨Winner.red, some 2, FinishType.knockout, 7, true⟩ else none) ∧
    (handlePick (fun _ => none) "f2" Winner.red none FinishType.knockout) =
      mapSet (fun _ => none) "f2"
        { winner := Winner.red
          finishType := FinishType.knockout
          round := if isRoundIrrelevant FinishType.knockout then none
                   else some (Option.getD none 1)
          confidence := clampConfidence
            ((Option.map Pick.confidence
                ((fun (_ : String) => (none : Option Pick)) "f2")).getD 5)
          locked := false } :=
  ⟨(setPick_contract _ "f1" Winner.blue (some 3) FinishType.submission).1
      ⟨Winner.red, some 2, FinishType.knockout, 7, true⟩ (by decide) rfl,
   (setPick_contract (fun _ => none) "f2" Winner.red none FinishType.knockout).2
      (by decide)⟩

/-- C4: `setConfidence(fightId, value)` no-ops when no pick exists for that
fight or the pick is locked; otherwise only that pick's confidence changes,
to `max(1, min(10, value))`, which always lies in `[1, 10]`. -/
theorem setConfidence_contract (prev : PickMap) (fid : String) (c : Int) :
    (prev fid = none → handleConfidence prev fid c = prev) ∧
    (∀ p, prev fid = some p → p.locked = true →
      handleConfidence prev fid c = prev) ∧
    (∀ p, prev fid = some p → p.locked = false →
      handleConfidence prev fid c =
        mapSet prev fid { p with confidence := max 1 (min 10 c) } ∧
      1 ≤ max 1 (min 10 c) ∧ max 1 (min 10 c) ≤ 10) := by
  refine ⟨fun h => by simp [handleConfidence, h], fun p hp hl => ?_, fun p hp hl => ?_⟩
  · simp [handleConfidence, hp, hl]
  · refine ⟨by simp [handleConfidence, hp, hl, clampConfidence], le_max_left 1 _, ?_⟩
    exact max_le (by norm_num) (min_le_left 10 c)

/-- Witness for C4 at concrete inputs: no-op on an absent pick and on a
locked pick; an out-of-range value 42 is stored clamped on an unlocked pick. -/
theorem setConfidence_contract_witness :
    (handleConfidence (fun _ => none) "f1" 42 = (fun _ => none)) ∧
    (handleConfidence
        (fun k => if k = "f1" then
          some ⟨Winner.red, some 2, FinishType.knockout, 7, true⟩ else none)
        "f1" 42 =
      (fun k => if k = "f1" then
        some ⟨Winner.red, some 2, FinishType.knockout, 7, true⟩ else none)) ∧
    (handleConfidence
        (fun k => if k = "f1" then
          some ⟨Winner.red, some 2, FinishType.knockout, 7, false⟩ else none)
        "f1" 42 =
      mapSet
        (fun k => if k = "f1" then
          some ⟨Winner.red, some 2, FinishType.knockout, 7, false⟩ else none)
        "f1" ⟨Winner.red, some 2, FinishType.knockout, max 1 (min 10 42), false⟩) :=
  ⟨(setConfidence_contract (fun _ => none) "f1" 42).1 rfl,
   (setConfidence_contract _ "f1" 42).2.1
      ⟨Winner.red, some 2, FinishType.knockout, 7, true⟩ (by decide) rfl,
   ((setConfidence_contract _ "f1" 42).2.2
      ⟨Winner.red, some 2, FinishType.knockout, 7, false⟩ (by decide) rfl).1⟩

/-- C1 counterexample: the claim says a failed backend call leaves the pick
restored to its exact pre-call state. Take the loaded pick
`{winner: red, round: null, finishType: knockout, confidence: 5, locked:
false}` and a failing lock: the rollback restores `locked = false` but keeps
the optimistic `round = 1` normalization, so the pick is not its pre-call
value. -/
theorem toggleLock_rollback_cex :
    (toggleLockPick true
        (fun k => if k = "f1" then
          some ⟨Winner.red, none, FinishType.knockout, 5, false⟩ else none)
        "f1" (some "boom")).picks "f1" ≠
      some ⟨Winner.red, none, FinishType.knockout, 5, false⟩ := by
  decide

/-- C1 (amended): for every fight with an existing pick, when the backend
call of `toggleLock` (upsert when locking, locked=false update when
unlocking) fails, the `locked` flag is reverted to its pre-call value and
the user is notified with a non-empty alert; however only the `locked` field
is rolled back: the `round` field keeps the normalized value written by the
optimistic update (null when finish-type is decision/no-contest, else the
prior round defaulted to 1), so the pick equals its pre-call state exactly
when its round already equalled that normalized value. Other fights are
untouched. -/
theorem toggleLock_rollback (m : PickMap) (fid : String) (pick : Pick)
    (msg : String) (hp : m fid = some pick) :
    (toggleLockPick true m fid (some msg)).picks =
      mapSet m fid { pick with round := normRound pick } ∧
    (toggleLockPick true m fid (some msg)).alerts ≠ [] ∧
    (pick.round = normRound pick →
      (toggleLockPick true m fid (some msg)).picks fid = some pick) := by
  obtain ⟨w, r, ft, c, l⟩ := pick
  have hmain :
      (toggleLockPick true m fid (some msg)).picks =
        mapSet m fid { winner := w, round := normRound ⟨w, r, ft, c, l⟩,
                       finishType := ft, confidence := c, locked := l } ∧
      (toggleLockPick true m fid (some msg)).alerts ≠ [] := by
    cases l <;>
      simp [toggleLockPick, hp, normRound, mapSet_mapSet]
  refine ⟨hmain.1, hmain.2, fun hr => ?_⟩
  rw [hmain.1, mapSet_self]
  simp at hr
  rw [← hr]

/-- Witness for C1 (amended) at a concrete input: a failing unlock of a
locked knockout pick with round 2 restores the pick exactly (its round is
already normalized). -/
theorem toggleLock_rollback_witness :
    (toggleLockPick true
        (fun k => if k = "f1" then
          some ⟨Winner.red, some 2, FinishType.knockout, 7, true⟩ else none)
        "f1" (some "boom")).picks =
      mapSet
        (fun k => if k = "f1" then
          some ⟨Winner.red, some 2, FinishType.knockout, 7, true⟩ else none)
        "f1" { (⟨Winner.red, some 2, FinishType.knockout, 7, true⟩ : Pick) with
               round := normRound ⟨Winner.red, some 2, FinishType.knockout, 7, true⟩ } ∧
    (toggleLockPick true
        (fun k => if k = "f1" then
          some ⟨Winner.red, some 2, FinishType.knockout, 7, true⟩ else none)
        "f1" (some "boom")).alerts ≠ [] ∧
    (toggleLockPick true
        (fun k => if k = "f1" then
          some ⟨Winner.red, some 2, FinishType.knockout, 7, true⟩ else none)
        "f1" (some "boom")).picks "f1" =
      some ⟨Winner.red, some 2, FinishType.knockout, 7, true⟩ := by
  have h := toggleLock_rollback
    (fun k => if k = "f1" then
      some ⟨Winner.red, some 2, FinishType.knockout, 7, true⟩ else none)
    "f1" ⟨Winner.red, some 2, FinishType.knockout, 7, true⟩ "boom" (by decide)
  exact ⟨h.1, h.2.1, h.2.2 (by decide)⟩

/-- C5 counterexample: the claim says a successful unlock leaves winner,
finishType, round and confidence unchanged for every locked pick. Take the
loaded locked pick `{winner: red, round: 3, finishType: decision -
unanimous, confidence: 5, locked: true}`: the successful unlock writes
`round = null` (the optimistic update normalizes the round), so the
in-memory pick is not the original with only `locked` flipped. -/
theorem unlock_frame_cex :
    (toggleLockPick true
        (fun k => if k = "f1" then
          some ⟨Winner.red, some 3, FinishType.decisionUnanimous, 5, true⟩ else none)
        "f1" none).picks "f1" ≠
      some ⟨Winner.red, some 3, FinishType.decisionUnanimous, 5, false⟩ := by
  decide

/-- C5 (amended): for every locked pick, a successful unlock via
`toggleLock` sets `locked` to false and leaves winner, finishType and
confidence unchanged, while the persisted update writes only
`locked = false`; the in-memory `round`, however, is set to its normalized
value (null when the finish-type is decision/no-contest, else the prior
round defaulted to 1), which equals the original round exactly when the
round was already normalized — in particular for any pick that was locked
through `toggleLock` itself. Other fights are untouched. -/
theorem unlock_frame (m : PickMap) (fid : String) (pick : Pick)
    (hp : m fid = some pick) (hl : pick.locked = true) :
    (toggleLockPick true m fid none).picks =
      mapSet m fid { pick with locked := false, round := normRound pick } ∧
    (toggleLockPick true m fid none).op = some (DbOp.updateLockedFalse fid) ∧
    (toggleLockPick true m fid none).alerts = [] ∧
    (pick.round = normRound pick →
      (toggleLockPick true m fid none).picks fid =
        some { pick with locked := false }) := by
  obtain ⟨w, r, ft, c, l⟩ := pick
  cases hl
  refine ⟨?_, ?_, ?_, ?_⟩
  · simp [toggleLockPick, hp, normRound]
  · simp [toggleLockPick, hp]
  · simp [toggleLockPick, hp]
  · intro hr
    simp only [normRound] at hr ⊢
    simp [toggleLockPick, hp, mapSet_self, ← hr]

/-- Witness for C5 (amended) at a concrete input: unlocking the locked pick
`{red, round 2, knockout, confidence 7}` succeeds, persists only
`locked = false`, and leaves every other field unchanged. -/
theorem unlock_frame_witness :
    (toggleLockPick true
        (fun k => if k = "f1" then
          some ⟨Winner.red, some 2, FinishType.knockout, 7, true⟩ else none)
        "f1" none).op = some (DbOp.updateLockedFalse "f1") ∧
    (toggleLockPick true
        (fun k => if k = "f1" then
          some ⟨Winner.red, some 2, FinishType.knockout, 7, true⟩ else none)
        "f1" none).picks "f1" =
      some ⟨Winner.red, some 2, FinishType.knockout, 7, false⟩ := by
  have h := unlock_frame
    (fun k => if k = "f1" then
      some ⟨Winner.red, some 2, FinishType.knockout, 7, true⟩ else none)
    "f1" ⟨Winner.red, some 2, FinishType.knockout, 7, true⟩ (by decide) rfl
  exact ⟨h.2.1, h.2.2.2 (by decide)⟩

/-- C2 counterexample: the claim says every pick held in the store has a
null round when its finish-type is decision/no-contest, including picks
supplied by loaded data. But `fetchUserPicks` stores the row's round
unchanged: loading the single row `{fight_id: "f1", winner: red, round: 3,
finish_type: decision - unanimous, confidence: 5, locked: false}` puts a
pick with finish-type unanimous decision and round 3 (not null) in the
store. -/
theorem roundInv_loaded_cex :
    ¬ RoundInv (fetchUserPicks (fun _ => none) true
        (Except.ok [⟨"f1", Winner.red, some 3, FinishType.decisionUnanimous,
                     some 5, some false⟩])) := by
  intro h
  have h1 := h "f1" ⟨Winner.red, some 3, FinishType.decisionUnanimous, 5, false⟩
    (by decide) (by decide)
  simp at h1

/-- C2 (amended): the round-null invariant (every stored pick whose
finish-type is unanimous decision, split decision or no-contest has a null
round) is preserved by every pick-store operation — `setPick`,
`setConfidence`, and every branch of `toggleLock` — and the round submitted
by the admin `saveResult` procedure call is null whenever the chosen
finish-type makes the round irrelevant; but the invariant is not enforced on
loaded data: `fetchUserPicks` copies each row's round unchanged, so a loaded
pick with a decision/no-contest finish-type can carry a non-null round. -/
theorem roundInv_operations :
    (∀ m fid w r ft, RoundInv m → RoundInv (handlePick m fid w r ft)) ∧
    (∀ m fid c, RoundInv m → RoundInv (handleConfidence m fid c)) ∧
    (∀ u m fid e, RoundInv m → RoundInv (toggleLockPick u m fid e).picks) ∧
    (∀ adm res w ft r, handleAdminSaveResult adm res = .rpc w ft r →
      isRoundIrrelevant ft = true → r = none) := by
  refine ⟨?_, ?_, ?_, ?_⟩
  · intro m fid w r ft hm
    rw [handlePick]
    by_cases hl : ((m fid).map Pick.locked).getD false
    · simpa [hl] using hm
    · simp only [hl]
      simp only [Bool.false_eq_true, if_false]
      refine roundInv_mapSet hm ?_
      intro hirr
      simp [hirr]
  · intro m fid c hm
    rw [handleConfidence]
    cases hmf : m fid with
    | none => exact hm
    | some existing =>
      by_cases hl : existing.locked
      · simpa [hl] using hm
      · simp only [hl, Bool.false_eq_true, if_false]
        refine roundInv_mapSet hm ?_
        intro hirr
        exact hm fid existing hmf hirr
  · intro u m fid e hm
    cases u with
    | false => simpa [toggleLockPick] using hm
    | true =>
      cases hmf : m fid with
      | none => simpa [toggleLockPick, hmf] using hm
      | some pick =>
        have hnorm : ∀ b : Bool,
            RoundInv (mapSet m fid
              { pick with
                locked := b
                round := (if isRoundIrrelevant pick.finishType then none
                          else some (pick.round.getD 1)) }) := by
          intro b
          refine roundInv_mapSet hm ?_
          intro hirr
          simp only [hirr, if_true]
        cases hl : pick.locked with
        | false =>
          cases e with
          | none => simpa [toggleLockPick, hmf, hl] using hnorm true
          | some msg =>
            simpa [toggleLockPick, hmf, hl, mapSet_mapSet] using hnorm false
        | true =>
          cases e with
          | none => simpa [toggleLockPick, hmf, hl] using hnorm false
          | some msg =>
            simpa [toggleLockPick, hmf, hl, mapSet_mapSet] using hnorm true
  · intro adm res w ft r h hirr
    cases adm with
    | false => simp [handleAdminSaveResult] at h
    | true =>
      cases res with
      | none => simp [handleAdminSaveResult] at h
      | some rr =>
        cases hw : rr.winner with
        | none => simp [handleAdminSaveResult, hw] at h
        | some w' =>
          cases hf : rr.finishType with
          | none => simp [handleAdminSaveResult, hw, hf] at h
          | some ft' =>
            simp only [handleAdminSaveResult, hw, hf, Bool.not_true,
              Bool.false_eq_true, if_false, SaveResultAction.rpc.injEq] at h
            obtain ⟨-, rfl, hr⟩ := h
            rw [← hr]
            simp only [hirr, if_true]

/-- Witness for C2 (amended): applying each preserved-operation conjunct at
concrete inputs — `setPick` of a split-decision pick on the empty store, a
`setConfidence` and a failing `toggleLock` on the resulting store, and the
admin `saveResult` payload for a split-decision result with requested
round 4 — all hypotheses discharged at those inputs. -/
theorem roundInv_operations_witness :
    RoundInv (handlePick (fun _ => none) "f1" Winner.red (some 2)
      FinishType.decisionSplit) ∧
    RoundInv (handleConfidence
      (handlePick (fun _ => none) "f1" Winner.red (some 2)
        FinishType.decisionSplit) "f1" 42) ∧
    RoundInv (toggleLockPick true
      (handlePick (fun _ => none) "f1" Winner.red (some 2)
        FinishType.decisionSplit) "f1" (some "boom")).picks ∧
    (∀ r, handleAdminSaveResult true
        (some ⟨some Winner.red, some FinishType.decisionSplit, some 4⟩) =
          .rpc Winner.red FinishType.decisionSplit r → r = none) := by
  have hempty : RoundInv (fun _ => none) := fun _ _ h => nomatch h
  have h1 := roundInv_operations.1 (fun _ => none) "f1" Winner.red (some 2)
    FinishType.decisionSplit hempty
  refine ⟨h1, roundInv_operations.2.1 _ "f1" 42 h1,
    roundInv_operations.2.2.1 true _ "f1" (some "boom") h1, fun r h => ?_⟩
  exact roundInv_operations.2.2.2 true
    (some ⟨some Winner.red, some FinishType.decisionSplit, some 4⟩)
    Winner.red FinishType.decisionSplit r h (by decide)

theorem lbFold_ok (query : String → Except String (List LeaderRow))
    (k : String) (rows : List LeaderRow) (hq : query k = .ok rows) :
    ∀ (es : List EventWithFights) (acc : String → Option (List LeaderRow)),
      acc k = some rows → es.foldl (lbStep query) acc k = some rows := by
  intro es
  induction es with
  | nil => intro acc hacc; simpa using hacc
  | cons e es ih =>
    intro acc hacc
    rw [List.foldl_cons]
    refine ih _ ?_
    cases hqe : query e.toEvent.id with
    | error msg =>
      simp only [lbStep, hqe]
      exact hacc
    | ok r =>
      simp only [lbStep, hqe]
      by_cases hk : k = e.toEvent.id
      · subst hk
        rw [hq] at hqe
        cases hqe
        exact mapSet_self _ _ _
      · rw [mapSet_ne _ _ _ _ hk]
        exact hacc

theorem lbFold_error (query : String → Except String (List LeaderRow))
    (k : String) (msg : String) (hq : query k = .error msg) :
    ∀ (es : List EventWithFights) (acc : String → Option (List LeaderRow)),
      acc k = none → es.foldl (lbStep query) acc k = none := by
  intro es
  induction es with
  | nil => intro acc hacc; simpa using hacc
  | cons e es ih =>
    intro acc hacc
    rw [List.foldl_cons]
    refine ih _ ?_
    cases hqe : query e.toEvent.id with
    | error m2 =>
      simp only [lbStep, hqe]
      exact hacc
    | ok r =>
      simp only [lbStep, hqe]
      by_cases hk : k = e.toEvent.id
      · subst hk
        rw [hq] at hqe
        cases hqe
      · rw [mapSet_ne _ _ _ _ hk]
        exact hacc

theorem lbFold_mem_ok (query : String → Except String (List LeaderRow))
    (rows : List LeaderRow) :
    ∀ (es : List EventWithFights) (acc : String → Option (List LeaderRow))
      (e : EventWithFights), e ∈ es → query e.toEvent.id = .ok rows →
      es.foldl (lbStep query) acc e.toEvent.id = some rows := by
  intro es
  induction es with
  | nil => intro acc e he; cases he
  | cons x xs ih =>
    intro acc e he hq
    rw [List.foldl_cons]
    rcases List.mem_cons.mp he with rfl | hxs
    · refine lbFold_ok query _ rows hq xs _ ?_
      rw [lbStep, hq]
      exact mapSet_self _ _ _
    · exact ih _ e hxs hq

theorem lbFold_mem_error (query : String → Except String (List LeaderRow))
    (msg : String) :
    ∀ (es : List EventWithFights) (acc : String → Option (List LeaderRow))
      (e : EventWithFights), acc e.toEvent.id = none → e ∈ es →
      query e.toEvent.id = .error msg →
      es.foldl (lbStep query) acc e.toEvent.id = none := by
  intro es
  induction es with
  | nil => intro acc e hacc he; cases he
  | cons x xs ih =>
    intro acc e hacc he hq
    rw [List.foldl_cons]
    have hstep : lbStep query acc x e.toEvent.id = none := by
      cases hqx : query x.toEvent.id with
      | error m2 =>
        simp only [lbStep, hqx]
        exact hacc
      | ok r =>
        simp only [lbStep, hqx]
        by_cases hk : e.toEvent.id = x.toEvent.id
        · rw [hk, hqx] at hq
          cases hq
        · rw [mapSet_ne _ _ _ _ hk]
          exact hacc
    rcases List.mem_cons.mp he with rfl | hxs
    · exact lbFold_error query _ msg hq xs _ hstep
    · exact ih _ e hstep hxs hq

/-- C6: in the per-event leaderboard fetch loop, for every loaded event `e`,
an `ok` query result for `e` is stored under `e`'s id in the resulting map —
regardless of failures on any other events — while a failed query for `e`
leaves `e`'s id absent from the resulting map (the loop continues either
way). -/
theorem leaderboard_partial_failure (events : List EventWithFights)
    (query : String → Except String (List LeaderRow))
    (prev : String → Option (List LeaderRow))
    (e : EventWithFights) (he : e ∈ events) :
    (∀ rows, query e.toEvent.id = .ok rows →
      fetchLeaderboards events query prev e.toEvent.id = some rows) ∧
    (∀ msg, query e.toEvent.id = .error msg →
      fetchLeaderboards events query prev e.toEvent.id = none) := by
  cases events with
  | nil => cases he
  | cons x xs =>
    constructor
    · intro rows hq
      show (x :: xs).foldl (lbStep query) (fun _ => none) e.toEvent.id = some rows
      exact lbFold_mem_ok query rows (x :: xs) _ e he hq
    · intro msg hq
      show (x :: xs).foldl (lbStep query) (fun _ => none) e.toEvent.id = none
      exact lbFold_mem_error query msg (x :: xs) _ e rfl he hq

/-- Witness for C6 at concrete inputs: with events A and B where A's query
fails and B's succeeds with one row, B's rows are stored and A is absent. -/
theorem leaderboard_partial_failure_witness :
    (fetchLeaderboards
      [⟨⟨"A", "Card A", 0, none, false⟩, []⟩, ⟨⟨"B", "Card B", 0, none, false⟩, []⟩]
      (fun k => if k = "A" then .error "down"
                else .ok [⟨"B", "u1", some "alice", some 9, some 3, some 1, some 12⟩])
      (fun _ => none)) "B" =
      some [⟨"B", "u1", some "alice", some 9, some 3, some 1, some 12⟩] ∧
    (fetchLeaderboards
      [⟨⟨"A", "Card A", 0, none, false⟩, []⟩, ⟨⟨"B", "Card B", 0, none, false⟩, []⟩]
      (fun k => if k = "A" then .error "down"
                else .ok [⟨"B", "u1", some "alice", some 9, some 3, some 1, some 12⟩])
      (fun _ => none)) "A" = none := by
  have hB := (leaderboard_partial_failure
    [⟨⟨"A", "Card A", 0, none, false⟩, []⟩, ⟨⟨"B", "Card B", 0, none, false⟩, []⟩]
    (fun k => if k = "A" then .error "down"
              else .ok [⟨"B", "u1", some "alice", some 9, some 3, some 1, some 12⟩])
    (fun _ => none)
    ⟨⟨"B", "Card B", 0, none, false⟩, []⟩ (by decide)).1
    [⟨"B", "u1", some "alice", some 9, some 3, some 1, some 12⟩] (by rfl)
  have hA := (leaderboard_partial_failure
    [⟨⟨"A", "Card A", 0, none, false⟩, []⟩, ⟨⟨"B", "Card B", 0, none, false⟩, []⟩]
    (fun k => if k = "A" then .error "down"
              else .ok [⟨"B", "u1", some "alice", some 9, some 3, some 1, some 12⟩])
    (fun _ => none)
    ⟨⟨"A", "Card A", 0, none, false⟩, []⟩ (by decide)).2 "down" (by rfl)
  exact ⟨hB, hA⟩

/-- C7: in the events-and-fights fetch, if either the events fetch or the
fights fetch fails, an error is logged, the client-side join is skipped and
the previously stored events-with-fights state is left unchanged. -/
theorem catalog_failure_keeps_state (prev : List EventWithFights)
    (events : Except String (List Event)) (fights : Except String (List Fight))
    (h : (∃ e, events = .error e) ∨ (∃ e, fights = .error e)) :
    (fetchEventsAndFights prev events fights).1 = prev ∧
    (fetchEventsAndFights prev events fights).2 ≠ [] := by
  rcases h with ⟨e, rfl⟩ | ⟨e, rfl⟩
  · cases fights <;> simp [fetchEventsAndFights]
  · cases events <;> simp [fetchEventsAndFights]

/-- Witness for C7 at a concrete input: a failing fights fetch with a
successful events fetch leaves the stored catalog unchanged and logs. -/
theorem catalog_failure_keeps_state_witness :
    (fetchEventsAndFights [⟨⟨"A", "Card A", 0, none, false⟩, []⟩]
      (Except.ok [⟨"B", "Card B", 5, some 9, true⟩])
      (Except.error "network down")).1 =
      [⟨⟨"A", "Card A", 0, none, false⟩, []⟩] ∧
    (fetchEventsAndFights [⟨⟨"A", "Card A", 0, none, false⟩, []⟩]
      (Except.ok [⟨"B", "Card B", 5, some 9, true⟩])
      (Except.error "network down")).2 ≠ [] :=
  catalog_failure_keeps_state [⟨⟨"A", "Card A", 0, none, false⟩, []⟩]
    (Except.ok [⟨"B", "Card B", 5, some 9, true⟩])
    (Except.error "network down")
    (Or.inr ⟨"network down", rfl⟩)

/-- C8: a username save attempt that passes format validation and fails with
a uniqueness-violation signal (code `23505`, or a message whose lowercase
form contains `duplicate`) yields the duplicate-specific outcome, not the
generic failure, and the stored profile is left unchanged. -/
theorem duplicate_username_message (u : String) (e : SupabaseError)
    (hv : isValidUsername (jsTrim u) = true)
    (hd : e.code = some "23505" ∨
          includesDuplicate (jsToLower (e.message.getD "")) = true) :
    saveUsername true u (some e) = SaveUsernameOutcome.duplicateTaken ∧
    saveUsername true u (some e) ≠ SaveUsernameOutcome.genericFailure ∧
    savedUsername (saveUsername true u (some e)) = none := by
  have hmain : saveUsername true u (some e) = SaveUsernameOutcome.duplicateTaken := by
    rcases hd with hc | hm
    · simp [saveUsername, hv, hc]
    · simp [saveUsername, hv, hm]
  refine ⟨hmain, ?_, ?_⟩
  · rw [hmain]
    decide
  · rw [hmain]
    rfl

/-- Witness for C8 at concrete inputs: the valid username `alice` rejected
with PostgreSQL code 23505 surfaces the duplicate-specific outcome. -/
theorem duplicate_username_message_witness :
    saveUsername true "alice" (some ⟨some "23505", some "duplicate key value"⟩) =
      SaveUsernameOutcome.duplicateTaken ∧
    savedUsername (saveUsername true "alice"
      (some ⟨some "23505", some "duplicate key value"⟩)) = none := by
  have h := duplicate_username_message "alice"
    ⟨some "23505", some "duplicate key value"⟩ (by decide) (Or.inl rfl)
  exact ⟨h.1, h.2.2⟩

/-- C9: in the admin variant, once an event's lock time has passed
(`lock_time ≤ now`), every pick-mutating control rendered for each of its
fights — winner buttons, confidence slider, round buttons, finish-type
buttons and the lock/unlock button — is disabled, for every pick state; and
the disabled flags do not depend on the fight's own start time at all. -/
theorem event_lock_gates_controls (now t fightTime : Int) (pick : Option Pick)
    (hlock : t ≤ now) :
    ((fightControls now (some t) fightTime pick).pickRedDisabled = true ∧
     (fightControls now (some t) fightTime pick).pickBlueDisabled = true ∧
     (fightControls now (some t) fightTime pick).confidenceDisabled = true ∧
     (fightControls now (some t) fightTime pick).roundDisabled = true ∧
     (fightControls now (some t) fightTime pick).finishDisabled = true ∧
     (fightControls now (some t) fightTime pick).lockButtonDisabled = true) ∧
    (∀ (n : Int) (lt : Option Int) (ft1 ft2 : Int) (p : Option Pick),
      fightControls n lt ft1 p = fightControls n lt ft2 p) := by
  constructor
  · have hev : isEventLocked now (some t) = true := by
      simp [isEventLocked, hlock]
    simp [fightControls, hev]
  · intro n lt ft1 ft2 p
    rfl

/-- Witness for C9 at concrete inputs: with lock time 5 and current time 10,
all controls for a fight with an unlocked pick are disabled. -/
theorem event_lock_gates_controls_witness :
    (fightControls 10 (some 5) 999
      (some ⟨Winner.red, some 2, FinishType.knockout, 7, false⟩)).pickRedDisabled
        = true ∧
    (fightControls 10 (some 5) 999
      (some ⟨Winner.red, some 2, FinishType.knockout, 7, false⟩)).lockButtonDisabled
        = true :=
  ⟨((event_lock_gates_controls 10 5 999
      (some ⟨Winner.red, some 2, FinishType.knockout, 7, false⟩) (by decide)).1).1,
   ((event_lock_gates_controls 10 5 999
      (some ⟨Winner.red, some 2, FinishType.knockout, 7, false⟩) (by decide)).1).2.2.2.2.2⟩

theorem pickFold_not_mem (k : String) :
    ∀ (rows : List PickRow) (acc : PickMap),
      k ∉ rows.map PickRow.fight_id → rows.foldl pickStep acc k = acc k := by
  intro rows
  induction rows with
  | nil => intro acc _; rfl
  | cons x xs ih =>
    intro acc hk
    rw [List.map_cons, List.mem_cons] at hk
    push_neg at hk
    rw [List.foldl_cons, ih _ hk.2]
    rw [pickStep, mapSet_ne _ _ _ _ hk.1]

theorem pickFold_mem (r : PickRow) :
    ∀ (rows : List PickRow) (acc : PickMap), r ∈ rows →
      (rows.map PickRow.fight_id).Nodup →
      rows.foldl pickStep acc r.fight_id = some (pickFromRow r) := by
  intro rows
  induction rows with
  | nil => intro acc hr; cases hr
  | cons x xs ih =>
    intro acc hr hnd
    rw [List.map_cons, List.nodup_cons] at hnd
    rw [List.foldl_cons]
    rcases List.mem_cons.mp hr with rfl | hxs
    · rw [pickFold_not_mem _ _ _ hnd.1, pickStep, mapSet_self]
    · exact ih _ hxs hnd.2

/-- C10: for every pick row fetched for the logged-in user (each fight id
appears at most once, as the table is unique per (fight, user)), the
resulting in-memory entry for that row's fight id has confidence clamped
into `[1, 10]` from the row's confidence (default 5 when null), locked
defaulting to false when null, round copied unchanged (no round-nulling
applied), and winner and finish-type copied unchanged. -/
theorem pickLoad_normalization (prevPicks : PickMap) (rows : List PickRow)
    (r : PickRow) (hmem : r ∈ rows)
    (hnodup : (rows.map PickRow.fight_id).Nodup) :
    fetchUserPicks prevPicks true (.ok rows) r.fight_id =
      some { winner := r.winner
             round := r.round
             finishType := r.finish_type
             confidence := max 1 (min 10 (r.confidence.getD 5))
             locked := r.locked.getD false } := by
  show buildPickMap rows r.fight_id = _
  rw [buildPickMap, pickFold_mem r rows _ hmem hnodup]
  rfl

/-- Witness for C10 at a concrete input: a row with null confidence and null
locked loads as an unlocked pick with confidence 5, and a decision row's
round 3 is copied unchanged. -/
theorem pickLoad_normalization_witness :
    fetchUserPicks (fun _ => none) true
      (.ok [⟨"f1", Winner.blue, some 3, FinishType.decisionSplit, none, none⟩])
      "f1" =
      some { winner := Winner.blue
             round := some 3
             finishType := FinishType.decisionSplit
             confidence := max 1 (min 10 (Option.getD none 5))
             locked := Option.getD none false } :=
  pickLoad_normalization (fun _ => none)
    [⟨"f1", Winner.blue, some 3, FinishType.decisionSplit, none, none⟩]
    ⟨"f1", Winner.blue, some 3, FinishType.decisionSplit, none, none⟩
    (by decide) (by decide)

end FightPicks
